import Mathlib

/-!
Verification of the per-pixel multi-frame reduction engine of `sa09.py`
(super averager for Pilatus detector images).

Modelling conventions (shallow embedding):
* A pixel value is `Option ℚ`; `none` models IEEE NaN, `some q` a finite value.
  Rationals stand for the float arithmetic (bit-exact float reproduction is an
  explicit non-goal of the specification).
* A frame is a function `P → Option ℚ` over an abstract pixel-index type `P`;
  a stack (`data2d` in the source) is a `List (P → Option ℚ)` in acquisition
  order, axis 0 of the numpy array.
* The `bottleneck`/`numpy` kernels used by the source are embedded per pixel:
  `bn.nansum` ignores `none` and returns `0` on an all-`none` slice,
  `bn.nanmean`/`bn.nanvar` (default `ddof=0`) return `none` on an all-`none`
  slice, `bn.nanmedian` averages the two middle order statistics for an even
  count, `np.amin` propagates `none`, and
  `bn.partition(·, k, axis=0)[:k]` keeps the multiset of the `k` smallest
  values with `none` ordered last; the subsequent mean/variance are
  permutation invariant, so an explicit sort-and-take is a faithful model.
* Python `int()` on a float is truncation toward zero (`pytrunc`), and
  `divmod` on nonnegative operands is `Nat` division/modulus.
* Averager names are the four strings of the source's global `avgers` list,
  embedded as an enumeration; `params` is the one-key dictionary the queue
  builder `manage_avgers` attaches to each averager.
-/

namespace Sa09

/-- Python-level errors the embedded code can raise. -/
inductive PyError where
  | nameError
  | indexError
  deriving DecidableEq

/-- Python `int()` applied to a rational: truncation toward zero. -/
def pytrunc (q : ℚ) : ℤ := if 0 ≤ q then Int.floor q else Int.ceil q

/-- Strip the NaN entries of a pixel series (the values `bn` kernels keep). -/
def validVals (xs : List (Option ℚ)) : List ℚ := xs.filterMap id

/-- `bn.nansum` along axis 0, per pixel: sum of the non-NaN values,
`0` for an all-NaN slice. -/
def nansum (xs : List (Option ℚ)) : ℚ := (validVals xs).sum

/-- `bn.nanmean` along axis 0, per pixel: mean of the non-NaN values,
NaN for an all-NaN slice. -/
def nanmean (xs : List (Option ℚ)) : Option ℚ :=
  let v := validVals xs
  if v.length = 0 then none else some (v.sum / (v.length : ℚ))

/-- `bn.nanvar` along axis 0 with the default `ddof=0`, per pixel:
mean squared deviation of the non-NaN values from their mean,
NaN for an all-NaN slice. -/
def nanvar (xs : List (Option ℚ)) : Option ℚ :=
  let v := validVals xs
  if v.length = 0 then none
  else some ((v.map (fun t => (t - v.sum / (v.length : ℚ)) ^ 2)).sum / (v.length : ℚ))

/-- Insertion step of the sort used to model order statistics on `ℚ`. -/
def insertQ (x : ℚ) : List ℚ → List ℚ
  | [] => [x]
  | y :: ys => if x ≤ y then x :: y :: ys else y :: insertQ x ys

/-- Insertion sort on `ℚ` (ascending). -/
def sortQ : List ℚ → List ℚ
  | [] => []
  | x :: xs => insertQ x (sortQ xs)

/-- `bn.nanmedian` along axis 0, per pixel: median of the non-NaN values
(mean of the two middle order statistics for an even count), NaN for an
all-NaN slice. -/
def nanmedian (xs : List (Option ℚ)) : Option ℚ :=
  let v := sortQ (validVals xs)
  if v.length = 0 then none
  else if v.length % 2 = 1 then some (v.getD (v.length / 2) 0)
  else some ((v.getD (v.length / 2 - 1) 0 + v.getD (v.length / 2) 0) / 2)

/-- Comparison placing NaN (`none`) last, as `bn.partition` orders it. -/
def valLe (x y : Option ℚ) : Bool :=
  match x, y with
  | none, none => true
  | none, some _ => false
  | some _, none => true
  | some a, some b => decide (a ≤ b)

/-- Insertion step for sorting pixel values with NaN last. -/
def insertVal (x : Option ℚ) : List (Option ℚ) → List (Option ℚ)
  | [] => [x]
  | y :: ys => if valLe x y then x :: y :: ys else y :: insertVal x ys

/-- Sort of a pixel series with NaN last. -/
def sortVal : List (Option ℚ) → List (Option ℚ)
  | [] => []
  | x :: xs => insertVal x (sortVal xs)

/-- `bn.partition(data2d, k, axis=0)[:k]`, per pixel: the multiset of the
`k` smallest values (NaN ordered last), modelled as sort-and-take. -/
def lowestK (k : ℕ) (xs : List (Option ℚ)) : List (Option ℚ) := (sortVal xs).take k

/-- Binary minimum propagating NaN, the reduction step of `np.amin`. -/
def minNaN (x y : Option ℚ) : Option ℚ :=
  match x, y with
  | some a, some b => some (min a b)
  | _, _ => none

/-- `np.amin` along axis 0, per pixel: minimum, propagating NaN (the source
never applies it to an empty stack; `none` there is an unused default). -/
def amin (xs : List (Option ℚ)) : Option ℚ :=
  match xs with
  | [] => none
  | x :: rest => rest.foldl minNaN x

/-- `np.where(v >= 0, v, np.nan)` applied to one pixel value; NaN compares
false against `0` and stays NaN. -/
def maskNeg (v : Option ℚ) : Option ℚ :=
  match v with
  | some q => if 0 ≤ q then some q else none
  | none => none

/-- `np.where(s >= 0, s, np.nan)` applied to a finite group sum. -/
def maskNegQ (s : ℚ) : Option ℚ := if 0 ≤ s then some s else none

/-- The pixel series of a stack at pixel `p` (the axis-0 slice). -/
def pixelSeries {P : Type} (data2d : List (P → Option ℚ)) (p : P) : List (Option ℚ) :=
  data2d.map (fun im => im p)

/-- The four averager names of the source's global `avgers` list
(`'sum'`, `'average'`, `'median'`, `'decosmic2d'`). -/
inductive AvgerName where
  | sum
  | average
  | median
  | decosmic2d
  deriving DecidableEq

/-- The single parameter `manage_avgers` stores under the averager's name:
a boolean flag for `sum`/`average`, an optional group count for `median`
(`params['median']`), a fraction for `decosmic2d` (`params['decosmic2d']`). -/
inductive AvgParams where
  | flag (b : Bool)
  | median (n : Option ℤ)
  | dc2d (x : ℚ)
  deriving DecidableEq

/-- `self.params['median']` lookup (valid only for a median averager). -/
def AvgParams.medianN : AvgParams → Option ℤ
  | .median n => n
  | _ => none

/-- `self.params['decosmic2d']` lookup (valid only for a decosmic2d averager). -/
def AvgParams.dc2dX : AvgParams → ℚ
  | .dc2d x => x
  | _ => 0

/-- The `Avger` object of `sa09.py`: name, parameter dictionary, uncertainty
flag, and the mutable result fields initialised by `__init__`
(`data_avged = None`, `var_avged = None`, `success = -1`, `modestr = None`). -/
structure Avger (P : Type) where
  name : AvgerName
  params : AvgParams
  use_uncertainty : Bool
  data_avged : Option (P → Option ℚ) := none
  var_avged : Option (P → Option ℚ) := none
  success : ℤ := -1
  modestr : Option String := none

/-- `Avger.__init__(name, params, use_uncertainty)`. -/
def mkA {P : Type} (n : AvgerName) (ps : AvgParams) (u : Bool) : Avger P :=
  { name := n, params := ps, use_uncertainty := u }

/-- The `'sum'` branch of `Avger.run`. -/
def runSum {P : Type} (a : Avger P) (d : List (P → Option ℚ)) : Avger P :=
  let dav : P → Option ℚ := fun p => some (nansum (pixelSeries d p))
  { a with
    data_avged := some dav
    var_avged := if a.use_uncertainty then some dav else a.var_avged
    success := 1
    modestr := some "SUM" }

/-- The `'average'` branch of `Avger.run`. -/
def runAverage {P : Type} (a : Avger P) (d : List (P → Option ℚ)) : Avger P :=
  { a with
    data_avged := some (fun p => nanmean (pixelSeries d p))
    var_avged :=
      if a.use_uncertainty then some (fun p => nanvar (pixelSeries d p)) else a.var_avged
    success := 1
    modestr := some "AVG" }

/-- The `'median'` branch of `Avger.run`.  With an explicit `ngroups > 1` it
sums `ngroups` contiguous slices `data2d[i*n_per_group : i*n_per_group +
n_per_group]` with negative inputs masked to NaN (`np.where(... >= 0, ...,
np.nan)` inside `bn.nansum`), then takes the NaN-median of the group sums
with negative sums again masked; with `ngroups ≤ 1` it computes nothing;
with `ngroups = None` it takes the plain NaN-median of the frames.  The
trailing `self.success = 1` / `self.modestr = 'MED_OF_%d'` assignments of the
source execute on every path. -/
def runMedian {P : Type} (a : Avger P) (d : List (P → Option ℚ)) : Avger P :=
  let nfiles : ℤ := (d.length : ℤ)
  match a.params.medianN with
  | some ngroups =>
    let a1 :=
      if 1 < ngroups then
        let g : ℕ := ngroups.toNat
        let npg : ℕ := d.length / g
        let dav : P → Option ℚ := fun p =>
          nanmedian ((List.range g).map (fun i =>
            maskNegQ (nansum (((d.drop (i * npg)).take npg).map (fun im => maskNeg (im p))))))
        { a with data_avged := some dav }
      else a
    { a1 with success := 1, modestr := some ("MED_OF_" ++ toString ngroups) }
  | none =>
    let ngroups : ℤ := nfiles
    { a with
      data_avged := some (fun p => nanmedian (pixelSeries d p))
      success := 1
      modestr := some ("MED_OF_" ++ toString ngroups) }

/-- The `'decosmic2d'` branch of `Avger.run`.  `xhighest = 0` falls back to
the plain NaN-mean; `0 < xhighest ≤ 1` keeps `nlowest = int((1-xhighest) *
nfiles)` lowest values per pixel (clamped up to `1`, min image in that case,
and decremented when it equals `nfiles`); any other `xhighest` sets
`success = 0` — which the source's trailing unconditional `self.success = 1`
immediately overwrites on every path. -/
def runDc2d {P : Type} (a : Avger P) (d : List (P → Option ℚ)) : Avger P :=
  let nfiles : ℤ := (d.length : ℤ)
  let x : ℚ := a.params.dc2dX
  let a1 :=
    if x = 0 then
      { a with
        data_avged := some (fun p => nanmean (pixelSeries d p))
        var_avged :=
          if a.use_uncertainty then some (fun p => nanvar (pixelSeries d p)) else a.var_avged }
    else if 0 < x ∧ x ≤ 1 then
      let nlowest0 : ℤ := pytrunc ((1 - x) * (d.length : ℚ))
      let nlowest : ℤ := if nlowest0 = 0 then 1 else nlowest0
      if nlowest = 1 then
        let dav : P → Option ℚ := fun p => amin (pixelSeries d p)
        { a with
          data_avged := some dav
          var_avged := if a.use_uncertainty then some dav else a.var_avged }
      else
        let nlowest2 : ℤ := if nlowest = nfiles then nlowest - 1 else nlowest
        { a with
          data_avged := some (fun p => nanmean (lowestK nlowest2.toNat (pixelSeries d p)))
          var_avged :=
            if a.use_uncertainty then
              some (fun p => nanvar (lowestK nlowest2.toNat (pixelSeries d p)))
            else a.var_avged }
    else
      { a with success := 0 }
  { a1 with success := 1, modestr := some ("DC2D_" ++ toString x) }

/-- `Avger.run(data2d)`: the four name-dispatched branches of the source
(independent `if self.name == ...` tests on a name that never changes,
hence a single dispatch). -/
def Avger.run {P : Type} (a : Avger P) (d : List (P → Option ℚ)) : Avger P :=
  match a.name with
  | .sum => runSum a d
  | .average => runAverage a d
  | .median => runMedian a d
  | .decosmic2d => runDc2d a d

/-- The value image of an averager at pixel `p` (`None` if `run` never set
`data_avged`). -/
def Avger.valAt {P : Type} (a : Avger P) (p : P) : Option (Option ℚ) :=
  a.data_avged.map (fun f => f p)

/-- The command-line arguments of `superavg` that the averaging and output
stages read (`args.sum`, `args.average`, `args.median`, `args.decosmic2d`,
`args.negative_to_nan`, `args.uncertainty`, `args.preview`, `args.verbose`). -/
structure Args where
  sum : Bool
  average : Bool
  median : Option (List ℤ)
  decosmic2d : Option (List ℚ)
  negative_to_nan : Bool
  uncertainty : Bool
  preview : Bool
  verbose : ℤ

/-- The argparse defaults with no reducer selected on the command line:
`sum=False`, `average=False`, `median=None`, `decosmic2d=None`,
`negative_to_nan=True`, `uncertainty=False`, `preview=True`, `verbose=1`. -/
def noReducerArgs : Args :=
  { sum := false, average := false, median := none, decosmic2d := none,
    negative_to_nan := true, uncertainty := false, preview := true, verbose := 1 }

/-- The averager queue `Sa.manage_avgers` builds: it walks the global
`avgers` list (`sum`, `average`, `median`, `decosmic2d`); a true boolean
flag appends one averager, a parameter list appends one averager per value,
`None` appends nothing. -/
def buildAvgers (P : Type) (args : Args) : List (Avger P) :=
  (if args.sum then [mkA .sum (.flag true) args.uncertainty] else [])
  ++ (if args.average then [mkA .average (.flag true) args.uncertainty] else [])
  ++ (match args.median with
      | none => []
      | some vs => vs.map (fun v => mkA .median (.median (some v)) args.uncertainty))
  ++ (match args.decosmic2d with
      | none => []
      | some vs => vs.map (fun v => mkA .decosmic2d (.dc2d v) args.uncertainty))

/-- `Sa.manage_avgers`: masks negative stack values to NaN when
`negative_to_nan` is set, builds the queue, runs every averager, and then —
outside the loop — reads `avger.success` from the loop variable.  With an
empty queue the loop variable was never bound and that read raises
`NameError`; this is modelled by the `getLast?` access (preview rendering is
display-only and elided). -/
def manage_avgers {P : Type} (args : Args) (data2d : List (P → Option ℚ)) :
    Except PyError (List (Avger P)) :=
  let data2d :=
    if args.negative_to_nan then data2d.map (fun im p => maskNeg (im p)) else data2d
  let ran := (buildAvgers P args).map (fun a => a.run data2d)
  match ran.getLast? with
  | none => Except.error PyError.nameError
  | some _ => Except.ok ran

/-- `Sa.manage_output`: after the save loop over the averagers the source
reads `avger.success` from the loop variable; with an empty list that read
raises `NameError` (the file writes themselves are I/O and elided). -/
def manage_output {P : Type} (ran : List (Avger P)) : Except PyError Unit :=
  match ran.getLast? with
  | none => Except.error PyError.nameError
  | some _ => Except.ok ()

/-- A raw detector frame as `fabio.open(...).data` delivers it: a pixel
array of some height and width. -/
structure RawFrame where
  h : ℕ
  w : ℕ
  pix : ℕ → ℕ → ℚ

/-- `Sa.load_files`: the first file fixes the canonical shape
`(nypx, nxpx)`; every later file is copied into its slot when its shape
matches and otherwise its slot is filled with NaN, the loop continuing
either way. -/
def load_files (f : RawFrame) (rest : List RawFrame) : List (ℕ → ℕ → Option ℚ) :=
  (fun i j => some (f.pix i j)) ::
    rest.map (fun r =>
      if r.h = f.h ∧ r.w = f.w then (fun i j => some (r.pix i j)) else fun _ _ => none)

/-- Python `s.split('_')` on the character list of a filename. -/
def splitUnderscore : List Char → List (List Char)
  | [] => [[]]
  | c :: rest =>
    let r := splitUnderscore rest
    if c = '_' then [] :: r
    else
      match r with
      | [] => [[c]]
      | t :: ts => (c :: t) :: ts

/-- Python `s.split('_')` on a string. -/
def pysplit (s : String) : List String :=
  (splitUnderscore s.toList).map (fun cs => String.mk cs)

/-- Insertion step of the lexicographic sort `sorted` applies to the
filtered filename list. -/
def insertStr (x : String) : List String → List String
  | [] => [x]
  | y :: ys => if x < y then x :: y :: ys else y :: insertStr x ys

/-- `sorted` on a list of filenames. -/
def sortStr : List String → List String
  | [] => []
  | x :: xs => insertStr x (sortStr xs)

/-- The comprehension inside `Sa.pilatusfiles`:
`[x for x in filelist if x.split('_')[-2] == 'ct']`.  The negative index
`[-2]` is `parts[len - 2]` and raises `IndexError` whenever a name splits
into fewer than two tokens; evaluation is left to right and stops at the
first failing name. -/
def pilatusFilter : List String → Except PyError (List String)
  | [] => Except.ok []
  | x :: xs =>
    let parts := pysplit x
    if h : 2 ≤ parts.length then
      match pilatusFilter xs with
      | Except.error e => Except.error e
      | Except.ok rest =>
        if parts.get ⟨parts.length - 2, by omega⟩ = "ct" then Except.ok (x :: rest)
        else Except.ok rest
    else Except.error PyError.indexError

/-- `Sa.pilatusfiles`: the comprehension above wrapped in `sorted`. -/
def pilatusfiles (filelist : List String) : Except PyError (List String) :=
  (pilatusFilter filelist).map sortStr

/-- Outcome of `Sa.manage_input` for one location, keyed by the number of
matching frames: `loaded` when `nimages > 0`; `exited` when `nimages = 0`
and `verbose > 0` (the source prints and calls `sys.exit(0)` inside the
verbosity guard, terminating the whole process); `fellThrough` when
`nimages = 0` and `verbose ≤ 0` (no load happens and control continues). -/
inductive InputOutcome where
  | loaded
  | exited
  | fellThrough
  deriving DecidableEq

/-- The `if self.nimages > 0` branch of `Sa.manage_input` (lines 437-444). -/
def manage_input_model (nimages : ℕ) (verbose : ℤ) : InputOutcome :=
  if 0 < nimages then .loaded
  else if 0 < verbose then .exited
  else .fellThrough

/-- The per-location loop of `superavg`, abstracted over the frame count of
each requested location.  Returns the list of locations whose stacks were
actually loaded and processed, and whether the run terminated before the
loop finished.  `exited` ends the whole process (`sys.exit(0)`).
`fellThrough` also ends the run, through an unhandled exception in the
stages that follow: control continues into `manage_avgers`, which reads
`self.data2d` — absent any previously loaded stack that read raises
`AttributeError`; with a stale stack from an earlier location the reducers
rerun on the stale data and then `manage_output` evaluates
`self.filelist[0]` on the current location's empty file list, raising
`IndexError` (or, with an empty reducer queue, the post-loop read of
`manage_avgers` raises `NameError` first).  `superavg` catches nothing, so
every `fellThrough` aborts the loop and no later location is processed. -/
def superavgLoop (verbose : ℤ) : List ℕ → List ℕ × Bool
  | [] => ([], false)
  | n :: rest =>
    match manage_input_model n verbose with
    | .loaded =>
      let r := superavgLoop verbose rest
      (n :: r.1, r.2)
    | .exited => ([], true)
    | .fellThrough => ([], true)

/-- Contiguous groups of `k` frames each, `g` groups, trailing remainder
discarded — the spec's description of the GroupedMedian split. -/
def groupsOf {α : Type} (k : ℕ) : ℕ → List α → List (List α)
  | 0, _ => []
  | g + 1, l => l.take k :: groupsOf k g (l.drop k)

/-- Modelled from the claim's words (GroupedMedian as C2 states it): split
into `g` contiguous groups of `floor(N/g)` frames, NaN-ignoring per-pixel
sum of each group of raw values, re-mask negative sums to NaN, per-pixel
median across the group sums. -/
def specGroupedMedianClaim {P : Type} (g : ℕ) (stack : List (P → Option ℚ)) :
    P → Option ℚ :=
  fun p =>
    let npg := stack.length / g
    nanmedian ((groupsOf npg g stack).map (fun grp =>
      maskNegQ (nansum (grp.map (fun im => im p)))))

/-- GroupedMedian as the code actually computes it (amended claim): the
values inside each group are masked to NaN when negative before the
NaN-ignoring sum; the sums — necessarily nonnegative — are then re-masked
(a no-op) and the per-pixel median across the `g` group sums is taken. -/
def groupedMedianFixed {P : Type} (g : ℕ) (stack : List (P → Option ℚ)) :
    P → Option ℚ :=
  fun p =>
    let npg := stack.length / g
    nanmedian ((groupsOf npg g stack).map (fun grp =>
      maskNegQ (nansum (grp.map (fun im => maskNeg (im p))))))

/-- Modelled from the claim's words (TrimmedMean as C1 states it):
`n_keep = round((1 - retain_fraction) * N)` clamped up to `1` when `0` and
down to `N - 1` when equal to `N`; the value image is the NaN-ignoring mean
of the `n_keep` lowest values per pixel. -/
def specTrimmedMeanClaim {P : Type} (x : ℚ) (stack : List (P → Option ℚ)) :
    P → Option ℚ :=
  let n : ℤ := (stack.length : ℤ)
  let k0 : ℤ := round ((1 - x) * (stack.length : ℚ))
  let k : ℤ := if k0 = 0 then 1 else if k0 = n then n - 1 else k0
  fun p => nanmean (lowestK k.toNat (pixelSeries stack p))

/-- TrimmedMean as the code actually computes it for
`retain_fraction ∈ (0, 1]` (amended claim): `n_keep` is the truncation
`int((1 - retain_fraction) * N)`, clamped up to `1` when it computes to `0`
and down to `N - 1` when it equals `N` (never reached in exact arithmetic);
when `n_keep = 1` the value image is the NaN-propagating per-pixel minimum,
otherwise the NaN-ignoring mean of the `n_keep` lowest values per pixel. -/
def trimmedMeanFixed {P : Type} (x : ℚ) (stack : List (P → Option ℚ)) :
    P → Option ℚ :=
  let n : ℤ := (stack.length : ℤ)
  let k0 : ℤ := pytrunc ((1 - x) * (stack.length : ℚ))
  let k : ℤ := if k0 = 0 then 1 else if k0 = n then n - 1 else k0
  fun p =>
    if k = 1 then amin (pixelSeries stack p)
    else nanmean (lowestK k.toNat (pixelSeries stack p))

/-- The NaN-ignoring variance of the sample values at one pixel, written in
the moment form `E[t^2] - (E[t])^2` (`ddof = 0`, the convention the spec's
own end-to-end test fixes: population variance `8.25` for values `0..9`). -/
def specNanVariance (xs : List (Option ℚ)) : Option ℚ :=
  let v := validVals xs
  if v.length = 0 then none
  else some ((v.map (fun t => t ^ 2)).sum / (v.length : ℚ) - (v.sum / (v.length : ℚ)) ^ 2)

/-- A frame constant at value `v` over a single-pixel grid. -/
def constImg (v : ℚ) : Unit → Option ℚ := fun _ => some v

/-- Five single-pixel frames with values 1..5 (the concrete stack of C1). -/
def c1stack : List (Unit → Option ℚ) :=
  [constImg 1, constImg 2, constImg 3, constImg 4, constImg 5]

/-- Two single-pixel frames with values 3 and -1 (the concrete stack of C2). -/
def c2stack : List (Unit → Option ℚ) := [constImg 3, constImg (-1)]

/-- Two single-pixel frames with values 2 and 4 (the concrete stack of C8's
witness). -/
def c8stack : List (Unit → Option ℚ) := [constImg 2, constImg 4]

/-- First frame of C6's witness: a 2 by 2 frame. -/
def w6first : RawFrame := { h := 2, w := 2, pix := fun _ _ => 1 }

/-- Second frame of C6's witness: a 1 by 2 frame, mismatching the canonical
shape. -/
def w6frame : RawFrame := { h := 1, w := 2, pix := fun _ _ => 5 }

/-!  Theorems.  -/

/-- C1, counterexample.  The claim's concrete case fails on the code: for
`retain_fraction = 1.0` on the 5-frame stack with per-pixel values 1..5 the
source computes `nlowest = int(0 * 5) = 0`, clamps it up to `1` and returns
the per-pixel minimum `1` — not `2.5`, the mean of the four lowest.  The
claim's formula also uses `round` where the code truncates: at
`retain_fraction = 0.3` on the same stack the code keeps
`int(3.5) = 3` lowest values (mean `2`) while the claim's
`round(3.5) = 4` would keep four (mean `2.5`). -/
theorem C1_counterexample :
    (((mkA .decosmic2d (.dc2d 1) false).run c1stack).valAt () = some (some 1)
      ∧ ((mkA .decosmic2d (.dc2d 1) false).run c1stack).valAt () ≠ some (some (5 / 2)))
    ∧ (((mkA .decosmic2d (.dc2d (3 / 10)) false).run c1stack).valAt () = some (some 2)
      ∧ specTrimmedMeanClaim (3 / 10) c1stack () = some (5 / 2)) := by
  have h1 : ((mkA .decosmic2d (.dc2d 1) false).run c1stack).valAt () = some (some 1) := by
    norm_num [Avger.run, mkA, runDc2d, AvgParams.dc2dX, Avger.valAt, c1stack, constImg,
      pytrunc, pixelSeries, amin, minNaN]
  refine ⟨⟨h1, ?_⟩, ?_, ?_⟩
  · rw [h1]
    intro h
    have := Option.some.inj (Option.some.inj h)
    norm_num at this
  · norm_num [Avger.run, mkA, runDc2d, AvgParams.dc2dX, Avger.valAt, c1stack, constImg,
      pytrunc, pixelSeries, lowestK, sortVal, insertVal, valLe, nanmean, validVals]
    simp
    norm_num
  · norm_num [specTrimmedMeanClaim, c1stack, constImg, pixelSeries, lowestK, sortVal,
      insertVal, valLe, nanmean, validVals, round_eq]
    simp
    norm_num

/-- C1, amended.  For `retain_fraction ∈ (0, 1]` on a nonempty stack the
code's value image is `trimmedMeanFixed`: `n_keep` is the truncation
`int((1 - retain_fraction) * N)` clamped up to `1` (the clamp down from `N`
never fires in exact arithmetic); `n_keep = 1` yields the NaN-propagating
per-pixel minimum — so `retain_fraction = 1.0` gives the minimum, `1` on the
claim's concrete stack — and `n_keep ≥ 2` yields the NaN-ignoring mean of
the `n_keep` lowest values per pixel. -/
theorem C1_amended {P : Type} (stack : List (P → Option ℚ)) (x : ℚ) (u : Bool)
    (h0 : 0 < x) (h1 : x ≤ 1) (hne : stack ≠ []) :
    ((mkA .decosmic2d (.dc2d x) u).run stack).data_avged
      = some (trimmedMeanFixed x stack) := by
  have hN : 0 < stack.length := List.length_pos.mpr hne
  have hq0 : (0 : ℚ) ≤ (1 - x) * (stack.length : ℚ) := by
    have hc : (0 : ℚ) ≤ (stack.length : ℚ) := by positivity
    nlinarith
  have hfl : pytrunc ((1 - x) * (stack.length : ℚ))
      = Int.floor ((1 - x) * (stack.length : ℚ)) := by
    simp [pytrunc, hq0]
  have hk0lt : pytrunc ((1 - x) * (stack.length : ℚ)) < (stack.length : ℤ) := by
    rw [hfl, Int.floor_lt]
    push_cast
    have hc : (0 : ℚ) < (stack.length : ℚ) := by exact_mod_cast hN
    nlinarith
  have hk0neN : pytrunc ((1 - x) * (stack.length : ℚ)) ≠ (stack.length : ℤ) :=
    ne_of_lt hk0lt
  have hxne : ¬(x = 0) := ne_of_gt h0
  show (runDc2d (mkA .decosmic2d (.dc2d x) u) stack).data_avged = _
  unfold runDc2d trimmedMeanFixed
  simp only [mkA, AvgParams.dc2dX, hxne, if_false, h0, h1, and_self, if_true, hk0neN]
  by_cases hz : pytrunc ((1 - x) * (stack.length : ℚ)) = 0
  · simp only [hz, if_pos rfl, if_true]
  · simp only [hz, if_false]
    by_cases ho : pytrunc ((1 - x) * (stack.length : ℚ)) = 1
    · simp only [ho, if_pos rfl, if_true]
    · simp only [ho, if_false]
      rw [if_neg hk0neN]

/-- C1, amended, witness at `retain_fraction = 1` on the claim's stack. -/
theorem C1_amended_witness :
    ((0 : ℚ) < 1 ∧ (1 : ℚ) ≤ 1 ∧ c1stack ≠ [])
    ∧ ((mkA .decosmic2d (.dc2d 1) false).run c1stack).data_avged
        = some (trimmedMeanFixed 1 c1stack) :=
  ⟨⟨by norm_num, by norm_num, by simp [c1stack]⟩,
    C1_amended c1stack 1 false (by norm_num) (by norm_num) (by simp [c1stack])⟩

/-- C2, counterexample.  On the 2-frame single-pixel stack with values
`3` and `-1` and `ngroups = 2`, the code masks the negative value to NaN
*before* the group sum, so the group sums are `3` and `0` and the median is
`3/2`; the claim's recipe (raw group sums, negatives re-masked only after
the sum) gives sums `3` and `-1`, masks the `-1`, and yields `3`. -/
theorem C2_counterexample :
    ((mkA .median (.median (some 2)) false).run c2stack).valAt () = some (some (3 / 2))
    ∧ specGroupedMedianClaim 2 c2stack () = some 3 := by
  constructor
  · norm_num [Avger.run, mkA, runMedian, AvgParams.medianN, Avger.valAt, c2stack, constImg,
      pixelSeries, nanmedian, nansum, validVals, maskNeg, maskNegQ]
    simp [List.range_succ]
    norm_num [sortQ, insertQ, validVals]
    simp
  · norm_num [specGroupedMedianClaim, c2stack, constImg, groupsOf, -List.filterMap_map,
      maskNegQ, nansum, validVals]
    simp
    norm_num [nanmedian, validVals, sortQ, insertQ]

/-- The recursive contiguous-group decomposition agrees with the source's
slice indexing `data2d[i*n_per_group : i*n_per_group + n_per_group]`. -/
theorem groupsOf_eq_slices {α : Type} (k : ℕ) :
    ∀ (g : ℕ) (l : List α),
      groupsOf k g l = (List.range g).map (fun i => (l.drop (i * k)).take k) := by
  intro g
  induction g with
  | zero => intro l; simp [groupsOf]
  | succ n ih =>
    intro l
    rw [groupsOf, List.range_succ_eq_map]
    simp only [List.map_cons, Nat.zero_mul, List.drop_zero, List.map_map]
    congr 1
    rw [ih (l.drop k)]
    apply List.map_congr_left
    intro i _
    simp [Function.comp, List.drop_drop, Nat.succ_mul, Nat.add_comm]

/-- C2, amended.  For an explicit `ngroups > 1`, the code's GroupedMedian
value image is `groupedMedianFixed`: the stack is split into `ngroups`
contiguous groups of `floor(N/ngroups)` frames (trailing remainder
discarded), each group is summed per pixel NaN-ignoring *with negative
input values first masked to NaN*, negative group sums are re-masked to NaN
(a no-op, the masked sums being nonnegative), and the per-pixel median
across the group sums is taken. -/
theorem C2_amended {P : Type} (stack : List (P → Option ℚ)) (g : ℤ) (u : Bool)
    (hg : 1 < g) :
    ((mkA .median (.median (some g)) u).run stack).data_avged
      = some (groupedMedianFixed g.toNat stack) := by
  show (runMedian (mkA .median (.median (some g)) u) stack).data_avged = _
  unfold runMedian
  simp only [mkA, AvgParams.medianN, hg, if_true]
  congr 1
  funext p
  unfold groupedMedianFixed
  simp only [groupsOf_eq_slices, List.map_map]
  rfl

/-- C2, amended, witness at `ngroups = 2` on the counterexample stack. -/
theorem C2_amended_witness :
    (1 : ℤ) < 2
    ∧ ((mkA .median (.median (some 2)) false).run c2stack).data_avged
        = some (groupedMedianFixed (2 : ℤ).toNat c2stack) :=
  ⟨by norm_num, C2_amended c2stack 2 false (by norm_num)⟩

/-- C5, counterexample.  With the default verbosity `1`, a first location
with zero matching frames makes `manage_input` call `sys.exit(0)`: the
whole process terminates and the second requested location (five frames) is
never processed — the claim's "remaining locations are still processed"
fails. -/
theorem C5_counterexample :
    superavgLoop 1 [0, 5] = ([], true)
    ∧ 5 ∉ (superavgLoop 1 [0, 5]).1 := by
  exact ⟨by decide, by decide⟩

/-- C5, amended.  A location with zero matching frames is not a soft,
location-local stop, at any verbosity: with verbosity `> 0` (default `1`)
`manage_input` prints and calls `sys.exit(0)`; with verbosity `≤ 0` the
exit is skipped but no stack is loaded, and the following stages raise an
unhandled exception (`AttributeError` on the missing `data2d`, or — with a
stale stack from an earlier location — `NameError`/`IndexError` on the
empty file list in the averaging/output stage).  Either way the entire
multi-location run terminates and no further location is processed. -/
theorem C5_amended :
    (∀ v : ℤ, 0 < v → manage_input_model 0 v = InputOutcome.exited)
    ∧ (∀ v : ℤ, v ≤ 0 → manage_input_model 0 v = InputOutcome.fellThrough)
    ∧ (∀ (v : ℤ) (rest : List ℕ), superavgLoop v (0 :: rest) = ([], true)) := by
  refine ⟨?_, ?_, ?_⟩
  · intro v hv
    simp [manage_input_model, hv]
  · intro v hv
    have hv' : ¬(0 < v) := not_lt.mpr hv
    simp [manage_input_model, hv']
  · intro v rest
    by_cases hv : 0 < v <;> simp [superavgLoop, manage_input_model, hv]

/-- C5, amended, witness: verbosity `1` and verbosity `-1` instances. -/
theorem C5_amended_witness :
    ((0 : ℤ) < 1 ∧ manage_input_model 0 1 = InputOutcome.exited)
    ∧ ((-1 : ℤ) ≤ 0 ∧ manage_input_model 0 (-1) = InputOutcome.fellThrough)
    ∧ (superavgLoop 1 (0 :: [5]) = ([], true)
      ∧ superavgLoop (-1) (0 :: [5]) = ([], true)) :=
  ⟨⟨by norm_num, C5_amended.1 1 (by norm_num)⟩,
    ⟨by norm_num, C5_amended.2.1 (-1) (by norm_num)⟩,
    ⟨C5_amended.2.2 1 [5], C5_amended.2.2 (-1) [5]⟩⟩

/-- C3, code bug, evaluation at the failing input.  For
`retain_fraction = 2 ∉ (0, 1]` the source's validation branch sets
`self.success = 0` ("Skipping"), but the trailing unconditional
`self.success = 1` overwrites it: the averager ends with `success = 1`
(reported successful, and `manage_output` will try to save the
nonexistent image) while no value image was produced. -/
theorem C3_eval :
    (((mkA (P := Unit) .decosmic2d (.dc2d 2) false).run c1stack).success = 1)
    ∧ (((mkA (P := Unit) .decosmic2d (.dc2d 2) false).run c1stack).data_avged = none) := by
  constructor <;> rfl

/-- C4, code bug, evaluation at the failing input.  For an explicit
`ngroups = 1` the source prints "Skipping." and computes nothing, but the
trailing `self.success = 1` / `self.modestr = 'MED_OF_1'` still run: the
averager ends with `success = 1` (not a skip) and no value image. -/
theorem C4_eval :
    (((mkA (P := Unit) .median (.median (some 1)) false).run c1stack).success = 1)
    ∧ (((mkA (P := Unit) .median (.median (some 1)) false).run c1stack).data_avged = none)
    ∧ (((mkA (P := Unit) .median (.median (some 1)) false).run c1stack).modestr
        = some "MED_OF_1") := by
  refine ⟨rfl, rfl, rfl⟩

/-- C9.  With no reducer selected on the command surface the queue built by
`manage_avgers` is empty, the `for` loop never binds its loop variable, and
both the post-loop `if avger.success == 1` check of `manage_avgers` and the
one of `manage_output` read an unbound name: both stages raise `NameError`
instead of completing normally with zero results. -/
theorem C9_thm {P : Type} (stack : List (P → Option ℚ)) :
    manage_avgers noReducerArgs stack = Except.error PyError.nameError
    ∧ manage_output ((buildAvgers P noReducerArgs).map (fun a => a.run stack))
        = Except.error PyError.nameError := by
  constructor <;> rfl

/-- C6.  During stack loading, every frame after the first whose pixel
dimensions differ from the canonical shape fixed by the first frame has its
slot filled entirely with NaN, and the loaded stack still holds one slot
per listed file — a shape mismatch never aborts the run. -/
theorem C6_thm (f : RawFrame) (rest : List RawFrame) (i : ℕ) (hi : i < rest.length)
    (hm : ¬((rest.get ⟨i, hi⟩).h = f.h ∧ (rest.get ⟨i, hi⟩).w = f.w)) :
    (load_files f rest).length = rest.length + 1
    ∧ (load_files f rest).getD (i + 1) (fun _ _ => some 0) = fun _ _ => none := by
  constructor
  · simp [load_files]
  · rw [load_files, List.getD_cons_succ]
    rw [List.getD_eq_getElem _ _ (by simpa using hi)]
    simp only [List.getElem_map]
    rw [if_neg]
    simpa using hm

/-- C6, witness: a 1 by 2 frame after a 2 by 2 first frame becomes an
all-NaN slot in a 2-slot stack. -/
theorem C6_witness :
    ((0 : ℕ) < 1 ∧ ¬(w6frame.h = w6first.h ∧ w6frame.w = w6first.w))
    ∧ ((load_files w6first [w6frame]).length = 1 + 1
      ∧ (load_files w6first [w6frame]).getD (0 + 1) (fun _ _ => some 0)
          = fun _ _ => none) :=
  ⟨⟨by decide, by decide⟩, C6_thm w6first [w6frame] 0 (by decide) (by decide)⟩

/-- Expansion of a sum of squared deviations about an arbitrary centre. -/
theorem sumSqDev (v : List ℚ) (c : ℚ) :
    (v.map (fun t => (t - c) ^ 2)).sum
      = (v.map (fun t => t ^ 2)).sum - 2 * c * v.sum + (v.length : ℚ) * c ^ 2 := by
  induction v with
  | nil => simp
  | cons a t ih =>
    simp only [List.map_cons, List.sum_cons, ih, List.length_cons]
    push_cast
    ring

/-- The embedded `bn.nanvar` kernel equals the moment form
`E[t^2] - (E[t])^2` of the NaN-ignoring variance. -/
theorem nanvar_eq_spec (xs : List (Option ℚ)) : nanvar xs = specNanVariance xs := by
  unfold nanvar specNanVariance
  by_cases h : (validVals xs).length = 0
  · simp [h]
  · simp only [h, if_false]
    congr 1
    have hn : ((validVals xs).length : ℚ) ≠ 0 := by exact_mod_cast h
    rw [sumSqDev]
    field_simp
    ring

/-- C7.  For the Mean reducer with uncertainty requested, the variance image
is the per-pixel NaN-ignoring variance of the sample values along the frame
axis (`ddof = 0`, the convention the spec's own end-to-end test fixes),
stated here in the independent moment form `E[t^2] - (E[t])^2`. -/
theorem C7_thm {P : Type} (stack : List (P → Option ℚ)) :
    ((mkA .average (.flag true) true).run stack).var_avged
      = some (fun p => specNanVariance (pixelSeries stack p)) := by
  show (runAverage (mkA .average (.flag true) true) stack).var_avged = _
  unfold runAverage
  simp only [mkA, if_true]
  congr 1
  funext p
  exact nanvar_eq_spec (pixelSeries stack p)

/-- A pixel series without NaN keeps its full length after NaN stripping. -/
theorem length_validVals_of_isSome (xs : List (Option ℚ))
    (h : ∀ x ∈ xs, x.isSome) : (validVals xs).length = xs.length := by
  induction xs with
  | nil => rfl
  | cons a t ih =>
    rcases a with _ | v
    · exact absurd (h none (List.mem_cons_self _ _)) (by simp)
    · have ht : (validVals t).length = t.length :=
        ih (fun x hx => h x (List.mem_cons_of_mem _ hx))
      show (v :: validVals t).length = t.length + 1
      simp [ht]

/-- C8.  On a nonempty NaN-free stack the Sum reducer's value image equals
`N` times the Mean reducer's value image, elementwise. -/
theorem C8_thm {P : Type} (stack : List (P → Option ℚ)) (hne : stack ≠ [])
    (hfree : ∀ im ∈ stack, ∀ q, (im q).isSome) (p : P) :
    ∃ m : ℚ,
      ((mkA .average (.flag true) false).run stack).valAt p = some (some m)
      ∧ ((mkA .sum (.flag true) false).run stack).valAt p
          = some (some ((stack.length : ℚ) * m)) := by
  have hall : ∀ x ∈ pixelSeries stack p, x.isSome := by
    intro x hx
    rcases List.mem_map.mp hx with ⟨im, him, rfl⟩
    exact hfree im him p
  have hlen : (validVals (pixelSeries stack p)).length = stack.length := by
    rw [length_validVals_of_isSome _ hall]
    simp [pixelSeries]
  have hne0 : stack.length ≠ 0 := by simpa using (List.length_pos.mpr hne).ne'
  have hne0Q : ((stack.length : ℚ)) ≠ 0 := by exact_mod_cast hne0
  refine ⟨(validVals (pixelSeries stack p)).sum / (stack.length : ℚ), ?_, ?_⟩
  · show (runAverage (mkA .average (.flag true) false) stack).valAt p = _
    have hvne : validVals (pixelSeries stack p) ≠ [] := by
      intro hcon
      apply hne0
      rw [← hlen, hcon]
      rfl
    simp [runAverage, Avger.valAt, nanmean, hlen, hne0, hvne]
  · show (runSum (mkA .sum (.flag true) false) stack).valAt p = _
    simp only [runSum, Avger.valAt, nansum, Option.map_some]
    field_simp

/-- C8, witness on the 2-frame NaN-free stack with values 2 and 4. -/
theorem C8_witness :
    (c8stack ≠ [] ∧ ∀ im ∈ c8stack, ∀ q : Unit, (im q).isSome)
    ∧ ∃ m : ℚ,
        ((mkA .average (.flag true) false).run c8stack).valAt () = some (some m)
        ∧ ((mkA .sum (.flag true) false).run c8stack).valAt ()
            = some (some ((c8stack.length : ℚ) * m)) := by
  have hne : c8stack ≠ [] := by simp [c8stack]
  have hfree : ∀ im ∈ c8stack, ∀ q : Unit, (im q).isSome := by
    intro im him q
    simp only [c8stack, List.mem_cons, List.not_mem_nil, or_false] at him
    rcases him with rfl | rfl <;> rfl
  exact ⟨⟨hne, hfree⟩, C8_thm c8stack hne hfree ()⟩

/-- A filename without an underscore splits into a single token. -/
theorem splitU_no_sep (l : List Char) (h : '_' ∉ l) : splitUnderscore l = [l] := by
  induction l with
  | nil => rfl
  | cons c t ih =>
    have hc : ¬(c = '_') := by
      intro hcc
      exact h (hcc ▸ List.mem_cons_self _ _)
    have ht : '_' ∉ t := fun hm => h (List.mem_cons_of_mem _ hm)
    simp only [splitUnderscore, hc, if_false, ih ht]

/-- Any listed name with fewer than two tokens makes the comprehension
raise `IndexError`. -/
theorem pilatusFilter_err (fl : List String)
    (hbad : ∃ x ∈ fl, (pysplit x).length < 2) :
    pilatusFilter fl = Except.error PyError.indexError := by
  induction fl with
  | nil => rcases hbad with ⟨x, hx, _⟩; cases hx
  | cons a t ih =>
    rcases hbad with ⟨x, hx, hlen⟩
    rcases List.mem_cons.mp hx with rfl | hxt
    · have h2 : ¬(2 ≤ (pysplit x).length) := by omega
      simp only [pilatusFilter, h2]
      rfl
    · by_cases h2 : 2 ≤ (pysplit a).length
      · have he := ih ⟨x, hxt, hlen⟩
        simp only [pilatusFilter, h2, he]
        rfl
      · simp only [pilatusFilter, h2]
        rfl

/-- When every listed name has at least two tokens the comprehension
completes normally. -/
theorem pilatusFilter_ok (fl : List String)
    (hok : ∀ x ∈ fl, 2 ≤ (pysplit x).length) :
    ∃ r, pilatusFilter fl = Except.ok r := by
  induction fl with
  | nil => exact ⟨[], rfl⟩
  | cons a t ih =>
    have h2 : 2 ≤ (pysplit a).length := hok a (List.mem_cons_self _ _)
    obtain ⟨r, hr⟩ := ih (fun x hx => hok x (List.mem_cons_of_mem _ hx))
    by_cases hct : (pysplit a).get ⟨(pysplit a).length - 2, by omega⟩ = "ct"
    · refine ⟨a :: r, ?_⟩
      rw [List.get_eq_getElem] at hct
      simp only [pilatusFilter, h2, hr]
      simp [hct]
    · refine ⟨r, ?_⟩
      rw [List.get_eq_getElem] at hct
      simp only [pilatusFilter, h2, hr]
      simp [hct]

/-- C10.  The naming-convention filter raises `IndexError` on any listed
filename with fewer than two underscore-separated tokens (in particular,
any name containing no underscore splits into exactly one token) instead of
excluding that file, and it returns normally exactly when every candidate
name splits into at least two tokens. -/
theorem C10_thm :
    (∀ s : String, '_' ∉ s.toList → (pysplit s).length = 1)
    ∧ (∀ fl : List String, (∃ x ∈ fl, (pysplit x).length < 2) →
        pilatusfiles fl = Except.error PyError.indexError)
    ∧ (∀ fl : List String, (∀ x ∈ fl, 2 ≤ (pysplit x).length) →
        ∃ r, pilatusfiles fl = Except.ok r) := by
  refine ⟨?_, ?_, ?_⟩
  · intro s hs
    have hs' : '_' ∉ s.data := by simpa [String.toList] using hs
    simp [pysplit, splitU_no_sep _ hs']
  · intro fl hbad
    simp [pilatusfiles, pilatusFilter_err fl hbad, Except.map]
  · intro fl hok
    obtain ⟨r, hr⟩ := pilatusFilter_ok fl hok
    exact ⟨sortStr r, by simp [pilatusfiles, hr, Except.map]⟩

/-- C10, witness: a list holding the underscore-free name `noext` errors; a
list of names with two or more tokens returns normally. -/
theorem C10_witness :
    ((∃ x ∈ ["noext"], (pysplit x).length < 2)
      ∧ pilatusfiles ["noext"] = Except.error PyError.indexError)
    ∧ ((∀ x ∈ ["ab_ct_1"], 2 ≤ (pysplit x).length)
      ∧ ∃ r, pilatusfiles ["ab_ct_1"] = Except.ok r) := by
  have hbad : ∃ x ∈ ["noext"], (pysplit x).length < 2 :=
    ⟨"noext", by simp, by decide⟩
  have hok : ∀ x ∈ ["ab_ct_1"], 2 ≤ (pysplit x).length := by
    intro x hx
    simp only [List.mem_singleton] at hx
    subst hx
    decide
  exact ⟨⟨hbad, C10_thm.2.1 ["noext"] hbad⟩, ⟨hok, C10_thm.2.2 ["ab_ct_1"] hok⟩⟩

end Sa09
